import Mathlib

/-!
Verification development for the QuickScribe streaming session engine.

The definitions below are a shallow embedding of the TypeScript sources:
- `GeminiLiveService` (connection state machine, transcript segmentation,
  disconnect/teardown, error classification) from `services/geminiLive.ts`;
- `float32ToInt16` from `audioUtils.ts`.

Strings are modelled as `List Char`; JavaScript string truthiness (`if (s)`)
is modelled as non-emptiness, and `String.prototype.trim` / the regex class
`\s` are modelled by the exact JavaScript whitespace character set.
Callback invocations (`onTranscription(text, isFinal)` / `onError(e)`) are
reified as an emission list returned alongside the updated service state.
-/

namespace QuickScribe

/-- The three sentence-terminal punctuation marks recognised by the
segmentation regex `([.?!])\s+` in `GeminiLiveService.handleMessage`. -/
def isPunct (c : Char) : Bool :=
  c = '.' || c = '?' || c = '!'

/-- The JavaScript regex whitespace class `\s` (also the set stripped by
`String.prototype.trim`): space, tab, line feed, vertical tab, form feed,
carriage return, NBSP, Ogham space mark, the U+2000..U+200A range, line and
paragraph separators, narrow NBSP, medium mathematical space, ideographic
space, and the BOM. -/
def isJsWS (c : Char) : Bool :=
  c = ' ' || c = '\t' || c = '\n' || c = '\r' ||
  c.val = 11 || c.val = 12 || c.val = 160 || c.val = 5760 ||
  (8192 ≤ c.val && c.val ≤ 8202) || c.val = 8232 || c.val = 8233 ||
  c.val = 8239 || c.val = 8287 || c.val = 12288 || c.val = 65279

/-- Strip leading JavaScript whitespace. -/
def jsTrimStart (l : List Char) : List Char :=
  l.dropWhile isJsWS

/-- Strip trailing JavaScript whitespace. -/
def jsTrimEnd (l : List Char) : List Char :=
  (l.reverse.dropWhile isJsWS).reverse

/-- JavaScript `String.prototype.trim`: strip whitespace from both ends. -/
def jsTrim (l : List Char) : List Char :=
  jsTrimEnd (jsTrimStart l)

/-- Coerce a Lean string literal to the `List Char` representation used
throughout this development. -/
def str (s : String) : List Char :=
  s.data

/-- One search step of the regex `([.?!])\s+` over the output buffer.
`splitAtBoundary buf = some (p, r)` means the leftmost match has the
punctuation mark as the last character of `p` (so `p` is
`buf.substring(0, match.index + 1)`), and `r` is the remainder of the buffer
after the greedy whitespace run (`buf.substring(match.index + match[0].length)`).
`none` means the regex does not match. -/
def splitAtBoundary : List Char → Option (List Char × List Char)
  | [] => none
  | [_] => none
  | c :: d :: rest =>
    if isPunct c && isJsWS d then
      some ([c], List.dropWhile isJsWS (d :: rest))
    else
      match splitAtBoundary (d :: rest) with
      | none => none
      | some (p, r) => some (c :: p, r)

/-- The `while ((match = this.currentOutputText.match(/([.?!])\s+/)))` loop
of `handleMessage`: repeatedly split the buffer at the first sentence
boundary, emitting the trimmed sentence when it is non-empty (the
`if (completeSentence)` guard) and continuing on the remainder.  The loop in
the source terminates because each iteration strictly shortens the buffer;
here the iteration count is bounded by a fuel argument, and
`scanSegments` supplies fuel equal to the buffer length, which is provably
sufficient (see `scanLoop_fuel_stable`). -/
def scanLoop : Nat → List Char → List (List Char) × List Char
  | 0, buf => ([], buf)
  | fuel + 1, buf =>
    match splitAtBoundary buf with
    | none => ([], buf)
    | some (p, r) =>
      let sentence := jsTrim p
      let rest := scanLoop fuel r
      (if sentence.isEmpty then rest.1 else sentence :: rest.1, rest.2)

/-- Run the sentence-boundary scanning loop of `handleMessage` to
completion on a buffer, returning the finalized sentences in emission order
together with the final buffer remainder. -/
def scanSegments (buf : List Char) : List (List Char) × List Char :=
  scanLoop buf.length buf

/-- Auxiliary for `jsIncludes`: does the second list occur as a prefix of
the first? -/
def listStartsWith : List Char → List Char → Bool
  | _, [] => true
  | [], _ :: _ => false
  | a :: as, b :: bs => a = b && listStartsWith as bs

/-- JavaScript `String.prototype.includes`: does `needle` occur as a
contiguous substring of the second argument? -/
def jsIncludes (needle : List Char) : List Char → Bool
  | [] => needle.isEmpty
  | c :: t => listStartsWith (c :: t) needle || jsIncludes needle t

/-- One `onTranscription(text, isFinal)` or `onError(message)` callback
invocation, reified as data. -/
inductive Emission where
  | transcription : List Char → Bool → Emission
  | error : List Char → Emission
deriving DecidableEq

/-- The fields of a `LiveServerMessage` read by `handleMessage`:
the optional `serverContent.inputTranscription.text` delta, the optional
`serverContent.outputTranscription.text` delta, and the
`serverContent.turnComplete` flag. -/
structure LiveServerMessage where
  inputTranscription : Option (List Char)
  outputTranscription : Option (List Char)
  turnComplete : Bool
deriving DecidableEq

/-- The mutable state of a `GeminiLiveService` instance.  Nullable resource
and callback fields (`session`, `audioContext`, `mediaStream`, `processor`,
`source`, `onTranscription`, `onError`) are modelled by presence flags, and
the two transcript buffers by character lists. -/
structure ServiceState where
  isConnected : Bool
  hasSession : Bool
  hasAudioContext : Bool
  hasMediaStream : Bool
  hasProcessor : Bool
  hasSource : Bool
  hasOnTranscription : Bool
  hasOnError : Bool
  currentInputText : List Char
  currentOutputText : List Char
deriving DecidableEq

/-- The external effects requested by the body of `connect` before the
first suspension point (microphone acquisition and opening the remote
channel), reified as data. -/
inductive ConnectAction where
  | requestMicrophone : ConnectAction
  | openChannel : ConnectAction
deriving DecidableEq

/-- Lines 158-161 of `handleMessage`: if the message carries a non-empty
input transcription delta (JavaScript truthiness of `inputTx?.text`),
append it to the input-echo buffer. -/
def applyInputDelta (st : ServiceState) (m : LiveServerMessage) : ServiceState :=
  match m.inputTranscription with
  | none => st
  | some t =>
    if t.isEmpty then st
    else { st with currentInputText := st.currentInputText ++ t }

/-- Lines 164-187 of `handleMessage`: if the message carries a non-empty
output transcription delta, append it to the output buffer, clear the
input-echo buffer, and run the sentence-boundary scanning loop, emitting
each completed sentence as a final transcription. -/
def applyOutputDelta (st : ServiceState) (m : LiveServerMessage) :
    ServiceState × List Emission :=
  match m.outputTranscription with
  | none => (st, [])
  | some t =>
    if t.isEmpty then (st, [])
    else
      let res := scanSegments (st.currentOutputText ++ t)
      ({ st with currentInputText := [], currentOutputText := res.2 },
        res.1.map (fun s => Emission.transcription s true))

/-- Lines 189-195 of `handleMessage`: on `turnComplete`, clear the
input-echo buffer, and flush the output buffer as one final transcription
when its trimmed content is non-empty. -/
def applyTurnComplete (st : ServiceState) (m : LiveServerMessage) :
    ServiceState × List Emission :=
  if m.turnComplete then
    if (jsTrim st.currentOutputText).isEmpty then
      ({ st with currentInputText := [] }, [])
    else
      ({ st with currentInputText := [], currentOutputText := [] },
        [Emission.transcription (jsTrim st.currentOutputText) true])
  else (st, [])

/-- Lines 197-202 of `handleMessage`: the live-preview emission.  If the
output buffer has non-whitespace content it is the preview (sent
untrimmed); otherwise the input-echo buffer is, when non-whitespace;
otherwise nothing is emitted. -/
def emitPreview (st : ServiceState) : List Emission :=
  if (jsTrim st.currentOutputText).isEmpty then
    if (jsTrim st.currentInputText).isEmpty then []
    else [Emission.transcription st.currentInputText false]
  else [Emission.transcription st.currentOutputText false]

/-- `GeminiLiveService.handleMessage` (lines 154-203): early-return when the
transcription callback reference has been cleared, otherwise apply the
input delta, the output delta with boundary scanning, the turn-complete
flush, and the preview emission, in source order. -/
def handleMessage (st : ServiceState) (m : LiveServerMessage) :
    ServiceState × List Emission :=
  if st.hasOnTranscription then
    let st1 := applyInputDelta st m
    let r2 := applyOutputDelta st1 m
    let r3 := applyTurnComplete r2.1 m
    (r3.1, r2.2 ++ r3.2 ++ emitPreview r3.1)
  else (st, [])

/-- The fully torn-down service state produced by `disconnect`
(lines 221-249): every flag false, every buffer empty. -/
def teardownState : ServiceState where
  isConnected := false
  hasSession := false
  hasAudioContext := false
  hasMediaStream := false
  hasProcessor := false
  hasSource := false
  hasOnTranscription := false
  hasOnError := false
  currentInputText := []
  currentOutputText := []

/-- `GeminiLiveService.disconnect` (lines 215-250): flush the pending
output buffer as one final transcription when still connected with a live
callback and non-whitespace content, then release every resource, clear the
callback references, and empty both buffers. -/
def disconnect (st : ServiceState) : ServiceState × List Emission :=
  if st.isConnected && st.hasOnTranscription &&
      !(jsTrim st.currentOutputText).isEmpty then
    (teardownState, [Emission.transcription (jsTrim st.currentOutputText) true])
  else
    (teardownState, [])

/-- `GeminiLiveService.handleRuntimeError` (lines 205-210): only while
connected, report the error through `onError` (when set) and then run a
full `disconnect`. -/
def handleRuntimeError (st : ServiceState) (msg : List Char) :
    ServiceState × List Emission :=
  if st.isConnected then
    let ems := if st.hasOnError then [Emission.error msg] else []
    let r := disconnect st
    (r.1, ems ++ r.2)
  else (st, [])

/-- The `onerror` transport callback (lines 59-66): forwarded to
`handleRuntimeError` only when already connected. -/
def socketOnError (st : ServiceState) (msg : List Char) :
    ServiceState × List Emission :=
  if st.isConnected then handleRuntimeError st msg else (st, [])

/-- The `onclose` transport callback (lines 67-76): record whether the
session was connected, mark it disconnected, and invoke
`handleRuntimeError` when the close was unexpected (close code other than
1000 while previously connected). -/
def socketOnClose (st : ServiceState) (code : Nat) :
    ServiceState × List Emission :=
  let wasConnected := st.isConnected
  let st1 := { st with isConnected := false }
  if wasConnected && code ≠ 1000 then
    handleRuntimeError st1 (str "Connection closed unexpectedly.")
  else (st1, [])

/-- The synchronous prologue of `GeminiLiveService.connect` (lines 25-48),
up to its first suspension point: return immediately when already connected
(line 31), otherwise install the two callbacks, reset both transcript
buffers, create the audio context, and request the microphone and the
remote channel (the awaited effects, reified as actions). -/
def connectStep (st : ServiceState) : ServiceState × List ConnectAction :=
  if st.isConnected then (st, [])
  else
    ({ st with
        hasOnTranscription := true
        hasOnError := true
        currentInputText := []
        currentOutputText := []
        hasAudioContext := true },
      [ConnectAction.requestMicrophone, ConnectAction.openChannel])

/-- The error message of the 404 / not-found branch of the `connect` catch
block (line 105). -/
def notFoundErrorMsg : List Char :=
  str "API Key Error: Requested model or project not found. You likely need a paid billing account and a valid API key."

/-- The error message of the 403 / permission branch of the `connect` catch
block (line 107). -/
def accessErrorMsg : List Char :=
  str "API Key Error: Access denied. Ensure your API key has the correct permissions for the Live API."

/-- The generic fallback error message of the `connect` catch block
(line 101). -/
def networkErrorMsg : List Char :=
  str "Network error: Unable to establish connection."

/-- The message-classification logic of the `connect` catch block
(lines 101-110).  An absent `err.message` is modelled as the empty list
(both are falsy in JavaScript and take the same branch). -/
def classifyConnectError (m : List Char) : List Char :=
  if !m.isEmpty && (jsIncludes (str "404") m || jsIncludes (str "not found") m) then
    notFoundErrorMsg
  else if !m.isEmpty && (jsIncludes (str "403") m || jsIncludes (str "permission") m) then
    accessErrorMsg
  else if !m.isEmpty then m
  else networkErrorMsg

/-- The `connect` catch block (lines 99-114): classify the failure message,
report it through `onError` when set, then run a full `disconnect`. -/
def connectCatch (st : ServiceState) (m : List Char) :
    ServiceState × List Emission :=
  let ems := if st.hasOnError then [Emission.error (classifyConnectError m)] else []
  let r := disconnect st
  (r.1, ems ++ r.2)

/-- `float32ToInt16` from `audioUtils.ts`: clamp each sample to `[-1, 1]`,
scale negative samples by `0x8000 = 32768` and non-negative samples by
`0x7fff = 32767`, and truncate toward zero (the `Int16Array` element
conversion).  Samples are modelled as exact rationals: every operation the
source performs on a `float32` input (clamping, scaling by `32768` or
`32767`, truncation) is exact in JavaScript double arithmetic, so the
rational model agrees with the source bit-for-bit. -/
def quantizeSample (s : ℚ) : ℤ :=
  let c := max (-1) (min 1 s)
  if c < 0 then ⌈c * 32768⌉ else ⌊c * 32767⌋

/-- The full `float32ToInt16` conversion, sample by sample. -/
def float32ToInt16 (l : List ℚ) : List ℤ :=
  l.map quantizeSample

/-! ### Helper lemmas about trimming -/

theorem dropWhile_length_le (p : Char → Bool) (l : List Char) :
    (l.dropWhile p).length ≤ l.length := by
  induction l with
  | nil => simp
  | cons a t ih =>
    by_cases h : p a
    · rw [List.dropWhile_cons_of_pos h]
      exact Nat.le_succ_of_le ih
    · rw [List.dropWhile_cons_of_neg h]

theorem dropWhile_idem (p : Char → Bool) (l : List Char) :
    (l.dropWhile p).dropWhile p = l.dropWhile p := by
  induction l with
  | nil => rfl
  | cons a t ih =>
    by_cases h : p a
    · rw [List.dropWhile_cons_of_pos h]
      exact ih
    · rw [List.dropWhile_cons_of_neg h, List.dropWhile_cons_of_neg h]

theorem dropWhile_head_false (p : Char → Bool) (l : List Char) (x : Char)
    (h : (l.dropWhile p).head? = some x) : p x = false := by
  induction l with
  | nil => simp at h
  | cons a t ih =>
    by_cases hp : p a
    · rw [List.dropWhile_cons_of_pos hp] at h
      exact ih h
    · rw [List.dropWhile_cons_of_neg hp] at h
      simp only [List.head?_cons, Option.some.injEq] at h
      rw [← h]
      exact Bool.of_not_eq_true hp

theorem dropWhile_append_singleton (p : Char → Bool) (c : Char)
    (hc : p c = false) (xs : List Char) :
    (xs ++ [c]).dropWhile p = xs.dropWhile p ++ [c] := by
  induction xs with
  | nil =>
    simp only [List.nil_append, List.dropWhile_nil]
    rw [List.dropWhile_cons_of_neg (by simp [hc])]
  | cons a t ih =>
    by_cases hp : p a
    · rw [List.cons_append, List.dropWhile_cons_of_pos hp,
        List.dropWhile_cons_of_pos hp, ih]
    · rw [List.cons_append, List.dropWhile_cons_of_neg hp,
        List.dropWhile_cons_of_neg hp, List.cons_append]

theorem jsTrimEnd_cons (c : Char) (hc : isJsWS c = false) (t : List Char) :
    jsTrimEnd (c :: t) = c :: jsTrimEnd t := by
  unfold jsTrimEnd
  rw [List.reverse_cons, dropWhile_append_singleton isJsWS c hc,
    List.reverse_append]
  rfl

theorem jsTrimEnd_idem (l : List Char) : jsTrimEnd (jsTrimEnd l) = jsTrimEnd l := by
  unfold jsTrimEnd
  rw [List.reverse_reverse, dropWhile_idem]

theorem jsTrim_idem (l : List Char) : jsTrim (jsTrim l) = jsTrim l := by
  unfold jsTrim
  cases h : jsTrimStart l with
  | nil => rfl
  | cons c t =>
    have hc : isJsWS c = false := by
      apply dropWhile_head_false isJsWS l
      unfold jsTrimStart at h
      rw [h]
      rfl
    rw [jsTrimEnd_cons c hc t]
    have hstart : jsTrimStart (c :: jsTrimEnd t) = c :: jsTrimEnd t := by
      unfold jsTrimStart
      rw [List.dropWhile_cons_of_neg (by simp [hc])]
    rw [hstart, jsTrimEnd_cons c hc (jsTrimEnd t), jsTrimEnd_idem]

theorem jsTrimEnd_append_last (q : List Char) (c : Char) (hc : isJsWS c = false) :
    jsTrimEnd (q ++ [c]) = q ++ [c] := by
  unfold jsTrimEnd
  rw [List.reverse_append, List.reverse_singleton, List.singleton_append,
    List.dropWhile_cons_of_neg (by simp [hc])]
  simp

theorem jsTrim_append_last_ne_nil (q : List Char) (c : Char)
    (hc : isJsWS c = false) : jsTrim (q ++ [c]) ≠ [] := by
  obtain ⟨q2, hq2⟩ : ∃ q2, jsTrimStart (q ++ [c]) = q2 ++ [c] := by
    by_cases he : (q.dropWhile isJsWS).isEmpty
    · refine ⟨[], ?_⟩
      unfold jsTrimStart
      rw [List.dropWhile_append, if_pos he, List.nil_append,
        List.dropWhile_cons_of_neg (by simp [hc])]
    · refine ⟨q.dropWhile isJsWS, ?_⟩
      unfold jsTrimStart
      rw [List.dropWhile_append, if_neg he]
  unfold jsTrim
  rw [hq2, jsTrimEnd_append_last q2 c hc]
  simp

theorem isPunct_not_ws (c : Char) (h : isPunct c = true) : isJsWS c = false := by
  unfold isPunct at h
  simp only [Bool.or_eq_true, decide_eq_true_eq] at h
  rcases h with (rfl | rfl) | rfl <;> decide

/-! ### Helper lemmas about boundary scanning -/

theorem splitAtBoundary_spec : ∀ (l p r : List Char),
    splitAtBoundary l = some (p, r) →
      (∃ q c, p = q ++ [c] ∧ isPunct c = true) ∧ r.length < l.length := by
  intro l
  induction l with
  | nil => intro p r h; simp [splitAtBoundary] at h
  | cons a t ih =>
    intro p r h
    cases t with
    | nil => simp [splitAtBoundary] at h
    | cons d rest =>
      rw [splitAtBoundary] at h
      by_cases hb : (isPunct a && isJsWS d) = true
      · rw [if_pos hb] at h
        simp only [Option.some.injEq, Prod.mk.injEq] at h
        obtain ⟨hp, hr⟩ := h
        constructor
        · refine ⟨[], a, hp.symm, ?_⟩
          simp only [Bool.and_eq_true] at hb
          exact hb.1
        · rw [← hr]
          have hle := dropWhile_length_le isJsWS (d :: rest)
          simp only [List.length_cons] at hle ⊢
          omega
      · rw [if_neg hb] at h
        cases hsp : splitAtBoundary (d :: rest) with
        | none => rw [hsp] at h; exact absurd h (by simp)
        | some pr =>
          obtain ⟨p2, r2⟩ := pr
          rw [hsp] at h
          simp only [Option.some.injEq, Prod.mk.injEq] at h
          obtain ⟨hp, hr⟩ := h
          obtain ⟨⟨q, c, hqc, hpc⟩, hlen⟩ := ih p2 r2 hsp
          refine ⟨⟨a :: q, c, ?_, hpc⟩, ?_⟩
          · rw [← hp, hqc]
            rfl
          · rw [← hr]
            simp only [List.length_cons] at hlen ⊢
            omega

theorem scanLoop_nil (f : Nat) : scanLoop f [] = ([], []) := by
  cases f <;> rfl

theorem scanLoop_fuel_stable : ∀ (f1 f2 : Nat) (buf : List Char),
    buf.length ≤ f1 → buf.length ≤ f2 → scanLoop f1 buf = scanLoop f2 buf := by
  intro f1
  induction f1 with
  | zero =>
    intro f2 buf h1 h2
    have hb : buf = [] := List.eq_nil_of_length_eq_zero (Nat.le_zero.mp h1)
    subst hb
    rw [scanLoop_nil, scanLoop_nil]
  | succ n ih =>
    intro f2 buf h1 h2
    cases f2 with
    | zero =>
      have hb : buf = [] := List.eq_nil_of_length_eq_zero (Nat.le_zero.mp h2)
      subst hb
      rw [scanLoop_nil, scanLoop_nil]
    | succ k =>
      simp only [scanLoop]
      cases hsp : splitAtBoundary buf with
      | none => rfl
      | some pr =>
        obtain ⟨p, r⟩ := pr
        have hlen := (splitAtBoundary_spec buf p r hsp).2
        dsimp only
        rw [ih k r (by omega) (by omega)]

theorem scanSegments_eq (buf : List Char) :
    scanSegments buf =
      match splitAtBoundary buf with
      | none => ([], buf)
      | some (p, r) => (jsTrim p :: (scanSegments r).1, (scanSegments r).2) := by
  cases hsp : splitAtBoundary buf with
  | none =>
    cases buf with
    | nil => rfl
    | cons a t =>
      unfold scanSegments
      simp only [List.length_cons, scanLoop]
      rw [hsp]
  | some pr =>
    obtain ⟨p, r⟩ := pr
    obtain ⟨⟨q, c, hq, hpc⟩, hlen⟩ := splitAtBoundary_spec buf p r hsp
    have hne : jsTrim p ≠ [] := by
      rw [hq]
      exact jsTrim_append_last_ne_nil q c (isPunct_not_ws c hpc)
    cases buf with
    | nil => simp [splitAtBoundary] at hsp
    | cons a t =>
      unfold scanSegments
      simp only [List.length_cons, scanLoop]
      rw [hsp]
      simp only [List.length_cons] at hlen
      dsimp only
      rw [scanLoop_fuel_stable t.length r.length r (by omega) (Nat.le_refl _)]
      rw [if_neg (by simp [List.isEmpty_iff, hne])]

theorem scanLoop_mem : ∀ (f : Nat) (buf t : List Char),
    t ∈ (scanLoop f buf).1 → t ≠ [] ∧ jsTrim t = t := by
  intro f
  induction f with
  | zero => intro buf t h; simp [scanLoop] at h
  | succ n ih =>
    intro buf t h
    simp only [scanLoop] at h
    cases hsp : splitAtBoundary buf with
    | none => rw [hsp] at h; simp at h
    | some pr =>
      obtain ⟨p, r⟩ := pr
      rw [hsp] at h
      simp only at h
      by_cases he : (jsTrim p).isEmpty
      · rw [if_pos he] at h
        exact ih r t h
      · rw [if_neg he] at h
        rcases List.mem_cons.mp h with rfl | hm
        · exact ⟨fun hnil => he (by rw [hnil]; rfl), jsTrim_idem p⟩
        · exact ih r t hm

theorem scanSegments_mem (buf t : List Char)
    (h : t ∈ (scanSegments buf).1) : t ≠ [] ∧ jsTrim t = t :=
  scanLoop_mem buf.length buf t h

theorem jsTrim_nil : jsTrim [] = [] := rfl

theorem disconnect_fst (st : ServiceState) : (disconnect st).1 = teardownState := by
  unfold disconnect
  split <;> rfl

/-! ### Concrete states and messages used in the claim instances -/

/-- A fully connected service state with both callbacks installed and both
transcript buffers empty, as produced by a successful `connect`. -/
def baseConnectedState : ServiceState where
  isConnected := true
  hasSession := true
  hasAudioContext := true
  hasMediaStream := true
  hasProcessor := true
  hasSource := true
  hasOnTranscription := true
  hasOnError := true
  currentInputText := []
  currentOutputText := []

/-- A message carrying only an output-translation delta. -/
def outDeltaMsg (t : String) : LiveServerMessage where
  inputTranscription := none
  outputTranscription := some t.data
  turnComplete := false

/-- A message carrying only an input-echo delta. -/
def inDeltaMsg (t : String) : LiveServerMessage where
  inputTranscription := some t.data
  outputTranscription := none
  turnComplete := false

/-- A message carrying only the turn-complete marker. -/
def turnOnlyMsg : LiveServerMessage where
  inputTranscription := none
  outputTranscription := none
  turnComplete := true

/-! ### Claim theorems -/

/-- C1: after appending an output-translation delta, the engine repeatedly
scans the buffer for the first terminal punctuation mark followed by
whitespace, emitting the trimmed text up to and including the punctuation as
one final segment and keeping only the remainder after the matched
whitespace (first conjunct: the scan satisfies exactly this recurrence); in
particular, feeding `"Hello world. How are you? "` as one output delta to a
connected engine yields exactly the two final segments `"Hello world."` and
`"How are you?"`, in that order, with both buffers left empty and no
non-final preview for that cycle (second conjunct, for every prior
input-echo buffer content and resource-flag configuration). -/
theorem claim_C1_boundary_scan :
    (∀ buf : List Char,
      scanSegments buf =
        match splitAtBoundary buf with
        | none => ([], buf)
        | some (p, r) => (jsTrim p :: (scanSegments r).1, (scanSegments r).2)) ∧
    (∀ (b1 b2 b3 b4 b5 b6 b7 : Bool) (inBuf : List Char),
      handleMessage
        { isConnected := b1, hasSession := b2, hasAudioContext := b3,
          hasMediaStream := b4, hasProcessor := b5, hasSource := b6,
          hasOnTranscription := true, hasOnError := b7,
          currentInputText := inBuf, currentOutputText := [] }
        (outDeltaMsg "Hello world. How are you? ") =
      ({ isConnected := b1, hasSession := b2, hasAudioContext := b3,
          hasMediaStream := b4, hasProcessor := b5, hasSource := b6,
          hasOnTranscription := true, hasOnError := b7,
          currentInputText := [], currentOutputText := [] },
        [Emission.transcription (str "Hello world.") true,
         Emission.transcription (str "How are you?") true])) := by
  constructor
  · exact scanSegments_eq
  · intro b1 b2 b3 b4 b5 b6 b7 inBuf
    rfl

/-- C2 counterexample: feeding `"Hello wor"` then `"ld."` does not finalize
any segment on the second delta.  The boundary regex `([.?!])\s+` requires
whitespace after the punctuation mark, and the buffer `"Hello world."` ends
at the period, so the second cycle emits only the non-final preview
`"Hello world."` — not the final segment the claim asserts. -/
theorem claim_C2_counterexample :
    (handleMessage (handleMessage baseConnectedState (outDeltaMsg "Hello wor")).1
        (outDeltaMsg "ld.")).2 =
      [Emission.transcription (str "Hello world.") false] ∧
    Emission.transcription (str "Hello world.") true ∉
      (handleMessage (handleMessage baseConnectedState (outDeltaMsg "Hello wor")).1
        (outDeltaMsg "ld.")).2 := by
  decide

/-- C2 amended: feeding `"Hello wor"` yields zero final segments and the
non-final preview `"Hello wor"`; a second delta whose terminal punctuation
is followed by whitespace (`"ld. "`) then yields exactly one final segment
`"Hello world."`, no preview, and empty buffers.  (As written the claim
fails for the whitespace-free delta `"ld."`, which leaves the sentence
pending in the buffer as a preview.) -/
theorem claim_C2_amended :
    (handleMessage baseConnectedState (outDeltaMsg "Hello wor")).2 =
      [Emission.transcription (str "Hello wor") false] ∧
    handleMessage (handleMessage baseConnectedState (outDeltaMsg "Hello wor")).1
        (outDeltaMsg "ld. ") =
      (baseConnectedState,
        [Emission.transcription (str "Hello world.") true]) := by
  decide

/-- C3 counterexample: a turn-complete message does not always leave the
output-translation buffer empty.  Reaching the whitespace-only buffer
`" "` through an output delta and then processing a turn-complete marker
emits nothing and leaves the buffer still holding `" "`, because the flush
is guarded by `this.currentOutputText.trim()` and the clearing happens only
inside that guard. -/
theorem claim_C3_counterexample :
    (handleMessage (handleMessage baseConnectedState (outDeltaMsg " ")).1
        turnOnlyMsg).1.currentOutputText = [' '] ∧
    ¬([' '] = ([] : List Char)) ∧
    (handleMessage (handleMessage baseConnectedState (outDeltaMsg " ")).1
        turnOnlyMsg).2 = [] := by
  decide

/-- C3 amended: for every state whose output-translation buffer has
non-whitespace content, a turn-complete message flushes the trimmed buffer
content as exactly one final segment (even without terminal punctuation) and
leaves both buffers empty with no preview; a buffer that trims to empty is
not flushed and not cleared — only the input-echo buffer is cleared. -/
theorem claim_C3_amended :
    (∀ st : ServiceState, st.hasOnTranscription = true →
      jsTrim st.currentOutputText ≠ [] →
      handleMessage st turnOnlyMsg =
        ({ st with currentInputText := [], currentOutputText := [] },
          [Emission.transcription (jsTrim st.currentOutputText) true])) ∧
    (∀ st : ServiceState, st.hasOnTranscription = true →
      jsTrim st.currentOutputText = [] →
      handleMessage st turnOnlyMsg = ({ st with currentInputText := [] }, [])) := by
  constructor
  · intro st h1 h2
    have he : (jsTrim st.currentOutputText).isEmpty = false := by
      rcases hj : jsTrim st.currentOutputText with _ | ⟨a, t⟩
      · exact absurd hj h2
      · rfl
    simp [handleMessage, applyInputDelta, applyOutputDelta, applyTurnComplete,
      emitPreview, turnOnlyMsg, h1, he, jsTrim_nil]
  · intro st h1 h2
    have he : (jsTrim st.currentOutputText).isEmpty = true := by
      rw [h2]
      rfl
    simp [handleMessage, applyInputDelta, applyOutputDelta, applyTurnComplete,
      emitPreview, turnOnlyMsg, h1, he, jsTrim_nil]

/-- C3 amended, witnessed at the claim instance: a connected engine holding
`"unfinished fragment"` (no terminal punctuation) that receives a
turn-complete marker emits exactly one final segment
`"unfinished fragment"` and ends with both buffers empty and no preview. -/
theorem claim_C3_witness :
    handleMessage
        { baseConnectedState with currentOutputText := str "unfinished fragment" }
        turnOnlyMsg =
      (baseConnectedState,
        [Emission.transcription (str "unfinished fragment") true]) :=
  claim_C3_amended.1
    { baseConnectedState with currentOutputText := str "unfinished fragment" }
    rfl (by decide)

/-- Does an emission represent a non-final (preview) transcription? -/
def isPreviewEmission : Emission → Bool
  | Emission.transcription _ false => true
  | _ => false

theorem filter_preview_finals (l : List (List Char)) :
    (l.map (fun s => Emission.transcription s true)).filter isPreviewEmission = [] := by
  induction l with
  | nil => rfl
  | cons a u ih => simp [List.filter_cons, isPreviewEmission, ih]

/-- C4: processing any message that carries non-empty output-translation
delta text leaves the input-echo buffer empty, and every non-final
(preview) emission of that cycle carries the output-translation buffer
content — the stale input-echo text is never previewed. -/
theorem claim_C4_output_preempts_input (st : ServiceState) (m : LiveServerMessage)
    (t : List Char) (h1 : st.hasOnTranscription = true)
    (h2 : m.outputTranscription = some t) (h3 : t ≠ []) :
    (handleMessage st m).1.currentInputText = [] ∧
    (handleMessage st m).2.filter isPreviewEmission =
      (if (jsTrim (handleMessage st m).1.currentOutputText).isEmpty then []
       else [Emission.transcription (handleMessage st m).1.currentOutputText false]) := by
  have ht : t.isEmpty = false := by
    cases t with
    | nil => exact absurd rfl h3
    | cons a u => rfl
  obtain ⟨mi, mo, mt⟩ := m
  dsimp only at h2
  subst h2
  cases mt with
  | false =>
    simp only [handleMessage, applyOutputDelta, applyTurnComplete, emitPreview,
      h1, ht, if_true, if_false, Bool.false_eq_true, List.filter_append,
      filter_preview_finals, jsTrim_nil, List.isEmpty_nil]
    constructor
    · trivial
    · split
      · simp [isPreviewEmission, jsTrim_nil]
      · simp [isPreviewEmission, List.filter_cons, jsTrim_nil]
  | true =>
    simp only [handleMessage, applyOutputDelta, applyTurnComplete, emitPreview,
      h1, ht, if_true, if_false, Bool.false_eq_true, List.filter_append,
      filter_preview_finals, jsTrim_nil, List.isEmpty_nil]
    split
    · constructor
      · trivial
      · split
        · simp [isPreviewEmission, jsTrim_nil]
        · simp_all [isPreviewEmission, List.filter_cons, jsTrim_nil]
    · constructor
      · trivial
      · simp [isPreviewEmission, List.filter_cons, jsTrim_nil]

/-- C4 witnessed at the claim instance: after the input-echo delta
`"ich bi"` followed by the output-translation delta `"I am"`, the
input-echo buffer is empty and the cycle previews exactly `"I am"`. -/
theorem claim_C4_witness :
    ((handleMessage (handleMessage baseConnectedState (inDeltaMsg "ich bi")).1
        (outDeltaMsg "I am")).1.currentInputText = []) ∧
    ((handleMessage (handleMessage baseConnectedState (inDeltaMsg "ich bi")).1
        (outDeltaMsg "I am")).2.filter isPreviewEmission =
      (if (jsTrim (handleMessage (handleMessage baseConnectedState
            (inDeltaMsg "ich bi")).1 (outDeltaMsg "I am")).1.currentOutputText).isEmpty
       then []
       else [Emission.transcription (handleMessage (handleMessage baseConnectedState
            (inDeltaMsg "ich bi")).1 (outDeltaMsg "I am")).1.currentOutputText false])) :=
  claim_C4_output_preempts_input
    (handleMessage baseConnectedState (inDeltaMsg "ich bi")).1
    (outDeltaMsg "I am") (str "I am") (by decide) rfl (by decide)

/-- C5: quantization clamps every sample to the unit interval and maps it
to a signed 16-bit integer, scaling negatives by 32768 and non-negatives by
32767: every output lies in [-32768, 32767]; 0, 1 and -1 map to 0, 32767
and -32768; and inputs beyond the unit interval saturate to the extremes. -/
theorem claim_C5_quantization :
    (∀ (l : List ℚ) (x : ℤ), x ∈ float32ToInt16 l → -32768 ≤ x ∧ x ≤ 32767) ∧
    quantizeSample 0 = 0 ∧ quantizeSample 1 = 32767 ∧
    quantizeSample (-1) = -32768 ∧
    (∀ s : ℚ, 1 ≤ s → quantizeSample s = 32767) ∧
    (∀ s : ℚ, s ≤ -1 → quantizeSample s = -32768) := by
  have hneg : quantizeSample (-1) = -32768 := by
    norm_num [quantizeSample]
    rw [show (-32768 : ℚ) = ((-32768 : ℤ) : ℚ) by norm_num]
    rw [Int.ceil_intCast]
  have hrange : ∀ s : ℚ, -32768 ≤ quantizeSample s ∧ quantizeSample s ≤ 32767 := by
    intro s
    unfold quantizeSample
    have hc1 : (-1 : ℚ) ≤ max (-1) (min 1 s) := le_max_left _ _
    have hc2 : max (-1 : ℚ) (min 1 s) ≤ 1 := max_le (by norm_num) (min_le_left _ _)
    by_cases h : max (-1 : ℚ) (min 1 s) < 0
    · rw [if_pos h]
      constructor
      · have hmul : (-32768 : ℚ) ≤ max (-1) (min 1 s) * 32768 := by nlinarith
        have hm2 := Int.ceil_mono hmul
        rw [show ((-32768 : ℚ)) = ((-32768 : ℤ) : ℚ) by norm_num,
          Int.ceil_intCast] at hm2
        exact hm2
      · have hmul : max (-1 : ℚ) (min 1 s) * 32768 ≤ 0 :=
          mul_nonpos_of_nonpos_of_nonneg h.le (by norm_num)
        have hle : ⌈max (-1 : ℚ) (min 1 s) * 32768⌉ ≤ 0 :=
          Int.ceil_le.mpr (by push_cast; exact hmul)
        omega
    · rw [if_neg h]
      push_neg at h
      constructor
      · have hge : (0 : ℤ) ≤ ⌊max (-1 : ℚ) (min 1 s) * 32767⌋ :=
          Int.le_floor.mpr (by push_cast; nlinarith)
        omega
      · have hmul : max (-1 : ℚ) (min 1 s) * 32767 ≤ 32767 := by nlinarith
        have hm2 := Int.floor_mono hmul
        rw [show ((32767 : ℚ)) = ((32767 : ℤ) : ℚ) by norm_num,
          Int.floor_intCast] at hm2
        exact hm2
  refine ⟨?_, by norm_num [quantizeSample], by norm_num [quantizeSample], hneg, ?_, ?_⟩
  · intro l x hx
    obtain ⟨s, hs, hsx⟩ := List.mem_map.mp hx
    rw [← hsx]
    exact hrange s
  · intro s hs
    unfold quantizeSample
    rw [min_eq_left hs, max_eq_right (by norm_num : (-1 : ℚ) ≤ 1)]
    norm_num
  · intro s hs
    unfold quantizeSample
    rw [min_eq_right (le_trans hs (by norm_num)), max_eq_left hs]
    norm_num
    rw [show (-32768 : ℚ) = ((-32768 : ℤ) : ℚ) by norm_num]
    rw [Int.ceil_intCast]

/-- C5 witnessed at a concrete sample list: the quantized value of the
half-scale sample 1/2 lies within the signed 16-bit range. -/
theorem claim_C5_witness :
    -32768 ≤ quantizeSample (1 / 2) ∧ quantizeSample (1 / 2) ≤ 32767 :=
  claim_C5_quantization.1 [1 / 2] (quantizeSample (1 / 2)) (by simp [float32ToInt16])

/-- C6: invoking `disconnect` on a connected session whose
output-translation buffer still trims to non-empty text emits exactly one
final segment carrying that trimmed text, and the state afterwards is fully
torn down (no buffered content is silently dropped on manual stop). -/
theorem claim_C6_disconnect_flush (st : ServiceState) (h1 : st.isConnected = true)
    (h2 : st.hasOnTranscription = true) (h3 : jsTrim st.currentOutputText ≠ []) :
    disconnect st =
      (teardownState, [Emission.transcription (jsTrim st.currentOutputText) true]) := by
  have he : (jsTrim st.currentOutputText).isEmpty = false := by
    rcases hj : jsTrim st.currentOutputText with _ | ⟨a, u⟩
    · exact absurd hj h3
    · rfl
  unfold disconnect
  rw [if_pos (by rw [h1, h2, he]; rfl)]

/-- C6 witnessed at the claim instance: a connected session holding
`"trailing thought"` (no terminal punctuation) flushes it as exactly one
final segment when `disconnect` is invoked. -/
theorem claim_C6_witness :
    disconnect { baseConnectedState with currentOutputText := str "trailing thought" } =
      (teardownState, [Emission.transcription (str "trailing thought") true]) :=
  claim_C6_disconnect_flush
    { baseConnectedState with currentOutputText := str "trailing thought" }
    rfl rfl (by decide)

/-- C7: redundant lifecycle calls are safe no-ops.  `disconnect` after
`disconnect` leaves the already torn-down state unchanged and emits
nothing (so calling it in any state, any number of times, is safe);
`disconnect` on the disconnected state is an exact no-op; and `connect`
invoked while already connected returns immediately, mutating no session
state and requesting no microphone or channel. -/
theorem claim_C7_idempotent_lifecycle :
    (∀ st : ServiceState, disconnect (disconnect st).1 = ((disconnect st).1, [])) ∧
    disconnect teardownState = (teardownState, []) ∧
    (∀ st : ServiceState, st.isConnected = true → connectStep st = (st, [])) := by
  refine ⟨?_, rfl, ?_⟩
  · intro st
    rw [disconnect_fst st]
    decide
  · intro st h
    unfold connectStep
    rw [if_pos h]

/-- C7 witnessed at a connected state: `connect` while connected leaves the
state untouched and opens nothing. -/
theorem claim_C7_witness :
    connectStep baseConnectedState = (baseConnectedState, []) :=
  claim_C7_idempotent_lifecycle.2.2 baseConnectedState rfl

/-- C8: after `disconnect` has completed, no transcription and no error
callback can fire again: any later inbound message, runtime error, socket
error or close event leaves the torn-down state unchanged and emits
nothing, because the callback references are cleared and every emission
path checks them (or the connected flag) first. -/
theorem claim_C8_silent_after_disconnect (st : ServiceState) (m : LiveServerMessage)
    (msg : List Char) (code : Nat) :
    handleMessage (disconnect st).1 m = ((disconnect st).1, []) ∧
    handleRuntimeError (disconnect st).1 msg = ((disconnect st).1, []) ∧
    socketOnError (disconnect st).1 msg = ((disconnect st).1, []) ∧
    socketOnClose (disconnect st).1 code = ((disconnect st).1, []) := by
  rw [disconnect_fst st]
  exact ⟨rfl, rfl, rfl, rfl⟩

/-- C9 counterexample: for a setup exception that is neither a
credential/entitlement failure nor message-less, the reported reason is not
the generic network-failure message — the catch block passes the
exception's own message through (`else if (err.message) errorMessage =
err.message`).  Here the exception message `"boom"` is reported verbatim. -/
theorem claim_C9_counterexample :
    connectCatch { teardownState with
        hasOnTranscription := true, hasOnError := true, hasAudioContext := true }
      (str "boom") =
      (teardownState, [Emission.error (str "boom")]) ∧
    str "boom" ≠ networkErrorMsg := by
  decide

/-- C9 amended: every setup exception is reported through the error
callback (never thrown) and classified: when the failure message contains
`404`, `not found`, `403` or `permission`, the reported reason is a
distinct message starting with `API Key Error`, different from the generic
network-failure message; any other exception reports its own message when
non-empty, and the generic network-failure message only when the exception
carries no message; in all cases a full `disconnect` follows the report. -/
theorem claim_C9_amended (st : ServiceState) (m : List Char) :
    (m ≠ [] →
      (jsIncludes (str "404") m || jsIncludes (str "not found") m ||
        jsIncludes (str "403") m || jsIncludes (str "permission") m) = true →
      (classifyConnectError m).take 13 = str "API Key Error" ∧
        classifyConnectError m ≠ networkErrorMsg) ∧
    (m ≠ [] →
      (jsIncludes (str "404") m || jsIncludes (str "not found") m ||
        jsIncludes (str "403") m || jsIncludes (str "permission") m) = false →
      classifyConnectError m = m) ∧
    classifyConnectError [] = networkErrorMsg ∧
    (connectCatch st m).1 = (disconnect st).1 ∧
    (st.hasOnError = true →
      (connectCatch st m).2 =
        Emission.error (classifyConnectError m) :: (disconnect st).2) := by
  refine ⟨?_, ?_, rfl, rfl, ?_⟩
  · intro hm hinc
    have hni : m.isEmpty = false := by
      cases m with
      | nil => exact absurd rfl hm
      | cons a u => rfl
    unfold classifyConnectError
    simp only [hni, Bool.not_false, Bool.true_and]
    by_cases h1 : (jsIncludes (str "404") m || jsIncludes (str "not found") m) = true
    · rw [if_pos h1]
      exact ⟨by decide, by decide⟩
    · rw [if_neg h1]
      have h2 : (jsIncludes (str "403") m || jsIncludes (str "permission") m) = true := by
        simp only [Bool.or_eq_true] at hinc h1 ⊢
        tauto
      rw [if_pos h2]
      exact ⟨by decide, by decide⟩
  · intro hm hinc
    have hni : m.isEmpty = false := by
      cases m with
      | nil => exact absurd rfl hm
      | cons a u => rfl
    have h404 : jsIncludes (str "404") m = false := by
      cases hx : jsIncludes (str "404") m
      · rfl
      · rw [hx] at hinc
        simp at hinc
    have hnf : jsIncludes (str "not found") m = false := by
      cases hx : jsIncludes (str "not found") m
      · rfl
      · rw [hx] at hinc
        simp at hinc
    have h403 : jsIncludes (str "403") m = false := by
      cases hx : jsIncludes (str "403") m
      · rfl
      · rw [hx] at hinc
        simp at hinc
    have hperm : jsIncludes (str "permission") m = false := by
      cases hx : jsIncludes (str "permission") m
      · rfl
      · rw [hx] at hinc
        simp at hinc
    unfold classifyConnectError
    simp only [hni, Bool.not_false, Bool.true_and, h404, hnf, h403, hperm]
    rfl
  · intro h
    unfold connectCatch
    rw [if_pos h]
    rfl

/-- C9 amended, witnessed at a concrete failure message: a `403` failure is
classified as an `API Key Error` reason distinct from the generic
network-failure message. -/
theorem claim_C9_witness :
    (classifyConnectError (str "403")).take 13 = str "API Key Error" ∧
      classifyConnectError (str "403") ≠ networkErrorMsg :=
  (claim_C9_amended teardownState (str "403")).1 (by decide) (by decide)

theorem applyOutputDelta_final_mem (st : ServiceState) (m : LiveServerMessage)
    (t : List Char)
    (h : Emission.transcription t true ∈ (applyOutputDelta st m).2) :
    jsTrim t ≠ [] := by
  obtain ⟨mi, mo, mt⟩ := m
  cases mo with
  | none => simp [applyOutputDelta] at h
  | some u =>
    simp only [applyOutputDelta] at h
    by_cases hu : u.isEmpty = true
    · rw [if_pos hu] at h
      simp at h
    · rw [if_neg hu] at h
      dsimp only at h
      obtain ⟨s, hs, heq⟩ := List.mem_map.mp h
      obtain ⟨hne, hfix⟩ := scanSegments_mem _ s hs
      injection heq with heq1 heq2
      rw [← heq1, hfix]
      exact hne

theorem applyTurnComplete_final_mem (st : ServiceState) (m : LiveServerMessage)
    (t : List Char)
    (h : Emission.transcription t true ∈ (applyTurnComplete st m).2) :
    jsTrim t ≠ [] := by
  unfold applyTurnComplete at h
  by_cases hm : m.turnComplete = true
  · rw [if_pos hm] at h
    by_cases he : (jsTrim st.currentOutputText).isEmpty = true
    · rw [if_pos he] at h
      simp at h
    · rw [if_neg he] at h
      simp only [List.mem_singleton] at h
      injection h with h1 h2
      rw [h1, jsTrim_idem]
      intro hc
      rw [hc] at he
      exact he rfl
  · rw [if_neg hm] at h
    simp at h

theorem emitPreview_no_final (st : ServiceState) (t : List Char)
    (h : Emission.transcription t true ∈ emitPreview st) : False := by
  unfold emitPreview at h
  split at h
  · split at h
    · simp at h
    · simp at h
  · simp at h

/-- C10: every finalized emission carries non-whitespace text.  On all
three finalization paths — sentence-boundary scanning, the turn-complete
flush inside `handleMessage`, and the flush inside `disconnect` — the
candidate text is guarded by a trimmed-non-empty check before the callback
fires, so a final segment with empty or whitespace-only text is never
produced. -/
theorem claim_C10_no_empty_finals :
    (∀ (st : ServiceState) (m : LiveServerMessage) (t : List Char),
      Emission.transcription t true ∈ (handleMessage st m).2 → jsTrim t ≠ []) ∧
    (∀ (st : ServiceState) (t : List Char),
      Emission.transcription t true ∈ (disconnect st).2 → jsTrim t ≠ []) := by
  constructor
  · intro st m t h
    unfold handleMessage at h
    by_cases hcb : st.hasOnTranscription = true
    · rw [if_pos hcb] at h
      dsimp only at h
      rcases List.mem_append.mp h with h2 | h2
      · rcases List.mem_append.mp h2 with h3 | h3
        · exact applyOutputDelta_final_mem _ _ t h3
        · exact applyTurnComplete_final_mem _ _ t h3
      · exact (emitPreview_no_final _ t h2).elim
    · rw [if_neg hcb] at h
      simp at h
  · intro st t h
    unfold disconnect at h
    by_cases hc : (st.isConnected && st.hasOnTranscription &&
        !(jsTrim st.currentOutputText).isEmpty) = true
    · rw [if_pos hc] at h
      simp only [List.mem_singleton] at h
      injection h with h1 h2
      rw [h1, jsTrim_idem]
      intro hnil
      rw [hnil] at hc
      simp at hc
    · rw [if_neg hc] at h
      simp at h

/-- C10 witnessed at a concrete finalizing cycle: the segment `"Hi."`
finalized out of the delta `"Hi. "` has non-whitespace text. -/
theorem claim_C10_witness : jsTrim (str "Hi.") ≠ [] :=
  claim_C10_no_empty_finals.1 baseConnectedState (outDeltaMsg "Hi. ")
    (str "Hi.") (by decide)

end QuickScribe
